import Mathlib

set_option maxHeartbeats 1000000

set_option maxRecDepth 100000

/-!
Shallow embedding of the MP3 forensic analysis core of the `deciduous`
repository (Rust), together with proofs about the properties its
specification states.

Bytes are modelled as natural numbers below 256.  Rust `u32` arithmetic in
the embedded functions stays far below `2^32` for the quantities involved
(bitrates are at most 448000, frame sizes below 10^8), so plain `Nat`
arithmetic is used; `u32`/`usize` truncating division is `Nat` division.
Fallible Rust code returns `Option`; a Rust panic is modelled as the outer
`none` of a nested `Option`.
-/

/-! ## Frame header parsing (src/mp3/frame.rs) -/

inductive MpegVersion
  | Mpeg1
  | Mpeg2
  | Mpeg25
deriving DecidableEq

inductive Layer
  | Layer1
  | Layer2
  | Layer3
deriving DecidableEq

inductive ChannelMode
  | Stereo
  | JointStereo
  | DualChannel
  | Mono
deriving DecidableEq

structure FrameHeader where
  version : MpegVersion
  layer : Layer
  bitrate : Nat
  sampleRate : Nat
  padding : Bool
  channelMode : ChannelMode
  frameSize : Nat
  samplesPerFrame : Nat
deriving DecidableEq

def BITRATES_V1_L3 : List Nat := [0, 32, 40, 48, 56, 64, 80, 96, 112, 128, 160, 192, 224, 256, 320, 0]

def BITRATES_V1_L2 : List Nat := [0, 32, 48, 56, 64, 80, 96, 112, 128, 160, 192, 224, 256, 320, 384, 0]

def BITRATES_V1_L1 : List Nat := [0, 32, 64, 96, 128, 160, 192, 224, 256, 288, 320, 352, 384, 416, 448, 0]

def BITRATES_V2_L3 : List Nat := [0, 8, 16, 24, 32, 40, 48, 56, 64, 80, 96, 112, 128, 144, 160, 0]

def BITRATES_V2_L2 : List Nat := [0, 8, 16, 24, 32, 40, 48, 56, 64, 80, 96, 112, 128, 144, 160, 0]

def BITRATES_V2_L1 : List Nat := [0, 32, 48, 56, 64, 80, 96, 112, 128, 144, 160, 176, 192, 224, 256, 0]

def SAMPLE_RATES_V1 : List Nat := [44100, 48000, 32000, 0]

def SAMPLE_RATES_V2 : List Nat := [22050, 24000, 16000, 0]

def SAMPLE_RATES_V25 : List Nat := [11025, 12000, 8000, 0]

/-- Version bits of byte 1: 0 is MPEG2.5, 2 is MPEG2, 3 is MPEG1, 1 is reserved. -/
def decodeVersion (v : Nat) : Option MpegVersion :=
  if v = 0 then some .Mpeg25
  else if v = 2 then some .Mpeg2
  else if v = 3 then some .Mpeg1
  else none

/-- Layer bits of byte 1: 1 is Layer III, 2 is Layer II, 3 is Layer I, 0 is reserved. -/
def decodeLayer (l : Nat) : Option Layer :=
  if l = 1 then some .Layer3
  else if l = 2 then some .Layer2
  else if l = 3 then some .Layer1
  else none

/-- Channel-mode bits of byte 3 (always masked to two bits). -/
def decodeChannel (c : Nat) : ChannelMode :=
  if c = 0 then .Stereo
  else if c = 1 then .JointStereo
  else if c = 2 then .DualChannel
  else .Mono

/-- Bitrate lookup, in kbps, by (version family, layer) as in the Rust match. -/
def bitrateFor (v : MpegVersion) (l : Layer) (idx : Nat) : Nat :=
  match v, l with
  | .Mpeg1, .Layer1 => BITRATES_V1_L1.getD idx 0
  | .Mpeg1, .Layer2 => BITRATES_V1_L2.getD idx 0
  | .Mpeg1, .Layer3 => BITRATES_V1_L3.getD idx 0
  | _, .Layer1 => BITRATES_V2_L1.getD idx 0
  | _, .Layer2 => BITRATES_V2_L2.getD idx 0
  | _, .Layer3 => BITRATES_V2_L3.getD idx 0

def sampleRateFor (v : MpegVersion) (idx : Nat) : Nat :=
  match v with
  | .Mpeg1 => SAMPLE_RATES_V1.getD idx 0
  | .Mpeg2 => SAMPLE_RATES_V2.getD idx 0
  | .Mpeg25 => SAMPLE_RATES_V25.getD idx 0

def samplesPerFrameFor (v : MpegVersion) (l : Layer) : Nat :=
  match v, l with
  | .Mpeg1, .Layer1 => 384
  | .Mpeg1, .Layer2 => 1152
  | .Mpeg1, .Layer3 => 1152
  | _, .Layer1 => 384
  | _, .Layer2 => 1152
  | _, .Layer3 => 576

/-- The `padding_size` computed by the Rust code: 4 for Layer I, 1 otherwise. -/
def paddingSizeOf (l : Layer) (p : Bool) : Nat :=
  if p then
    match l with
    | .Layer1 => 4
    | _ => 1
  else 0

/-- Frame size exactly as the Rust code computes it (note that for Layer I the
`padding_size` of 4 is added before the multiplication by 4). -/
def frameSizeOf (l : Layer) (bitrate sampleRate : Nat) (p : Bool) : Nat :=
  match l with
  | .Layer1 => (12 * bitrate * 1000 / sampleRate + paddingSizeOf l p) * 4
  | _ => 144 * bitrate * 1000 / sampleRate + paddingSizeOf l p

/-- FrameHeader::parse from src/mp3/frame.rs, on the four header bytes. -/
def FrameHeader.parse (b0 b1 b2 b3 : Nat) : Option FrameHeader :=
  if b0 = 0xFF ∧ b1 &&& 0xE0 = 0xE0 then
    match decodeVersion ((b1 >>> 3) &&& 0x03) with
    | none => none
    | some version =>
      match decodeLayer ((b1 >>> 1) &&& 0x03) with
      | none => none
      | some layer =>
        if bitrateFor version layer ((b2 >>> 4) &&& 0x0F) = 0 then none
        else if sampleRateFor version ((b2 >>> 2) &&& 0x03) = 0 then none
        else some
          { version := version
            layer := layer
            bitrate := bitrateFor version layer ((b2 >>> 4) &&& 0x0F)
            sampleRate := sampleRateFor version ((b2 >>> 2) &&& 0x03)
            padding := b2 &&& 0x02 != 0
            channelMode := decodeChannel ((b3 >>> 6) &&& 0x03)
            frameSize := frameSizeOf layer
              (bitrateFor version layer ((b2 >>> 4) &&& 0x0F))
              (sampleRateFor version ((b2 >>> 2) &&& 0x03))
              (b2 &&& 0x02 != 0)
            samplesPerFrame := samplesPerFrameFor version layer }
  else none

/-- Frame size formula as the specification states it in section 4.1:
Layer I is `(12 * bitrate*1000 / sample_rate + (padding ? 1 : 0)) * 4`,
Layer II/III is `144 * bitrate*1000 / sample_rate + (padding ? 1 : 0)`. -/
def specFrameSize (l : Layer) (bitrate sampleRate : Nat) (p : Bool) : Nat :=
  match l with
  | .Layer1 => (12 * bitrate * 1000 / sampleRate + (if p then 1 else 0)) * 4
  | _ => 144 * bitrate * 1000 / sampleRate + (if p then 1 else 0)

/-! ## Frame scanner (scan_frames and find_sync, src/mp3/frame.rs)

A seekable stream of bytes is a `List Nat` together with a cursor position.
The scan loop is given explicit fuel; the fuel is only consulted when the
loop guard holds, and `scan_frames` passes `data.length`, which is proved
sufficient (the position strictly increases on every iteration). -/

def byteAt (data : List Nat) (i : Nat) : Nat := data.getD i 0

structure FrameStats where
  frameCount : Nat
  bitrates : List Nat
  frameSizes : List Nat
  isVbr : Bool
  avgBitrate : Nat
  minBitrate : Nat
  maxBitrate : Nat
deriving DecidableEq

def emptyStats : FrameStats :=
  { frameCount := 0, bitrates := [], frameSizes := [], isVbr := false,
    avgBitrate := 0, minBitrate := 0, maxBitrate := 0 }

/-- Rust `iter().min()` on a nonempty list (0 on the empty list, unused there). -/
def minList : List Nat → Nat
  | [] => 0
  | x :: xs => xs.foldl min x

def maxList : List Nat → Nat
  | [] => 0
  | x :: xs => xs.foldl max x

/-- ID3v2 syncsafe size: each byte contributes its low 7 bits. -/
def syncsafe (a b c d : Nat) : Nat :=
  ((a &&& 0x7F) <<< 21) ||| ((b &&& 0x7F) <<< 14) ||| ((c &&& 0x7F) <<< 7) ||| (d &&& 0x7F)

/-- One while-loop of scan_frames.  State: cursor position, frame count, the
recorded bitrates and frame sizes, and the contents of the
`unique_bitrates` hash set (kept as a duplicate-free list).  An accepted
frame advances the cursor by `frame_size` (at least by the 4 header bytes);
a rejected 4-byte window advances it by 1. -/
def scanLoop (fuel : Nat) (data : List Nat) (pos maxFrames count : Nat)
    (br fs uniq : List Nat) : Option (Nat × List Nat × List Nat × List Nat) :=
  if count < maxFrames ∧ pos + 4 ≤ data.length then
    match fuel with
    | 0 => none
    | fuel + 1 =>
      match FrameHeader.parse (byteAt data pos) (byteAt data (pos + 1))
          (byteAt data (pos + 2)) (byteAt data (pos + 3)) with
      | some frame =>
        scanLoop fuel data (pos + max 4 frame.frameSize) maxFrames (count + 1)
          (br ++ [frame.bitrate]) (fs ++ [frame.frameSize])
          (if frame.bitrate ∈ uniq then uniq else uniq ++ [frame.bitrate])
      | none => scanLoop fuel data (pos + 1) maxFrames count br fs uniq
  else some (count, br, fs, uniq)

/-- The aggregate block at the end of scan_frames: fields stay at their
defaults when no bitrate was recorded. -/
def mkStats (count : Nat) (br fs uniq : List Nat) : FrameStats :=
  if br.isEmpty then
    { frameCount := count, bitrates := br, frameSizes := fs, isVbr := false,
      avgBitrate := 0, minBitrate := 0, maxBitrate := 0 }
  else
    { frameCount := count, bitrates := br, frameSizes := fs,
      isVbr := decide (1 < uniq.length),
      avgBitrate := br.sum / br.length,
      minBitrate := minList br, maxBitrate := maxList br }

/-- scan_frames from src/mp3/frame.rs.  `none` models the io::Error that the
`?` on the ID3v2 size read propagates (an "ID3" file shorter than 10 bytes);
every other exit is `Ok`. -/
def scan_frames (data : List Nat) (maxFrames : Nat) : Option FrameStats :=
  if data.length < 3 then some emptyStats
  else if data.take 3 = [73, 68, 51] then
    if data.length < 10 then none
    else
      match scanLoop data.length data
          (10 + syncsafe (byteAt data 6) (byteAt data 7) (byteAt data 8) (byteAt data 9))
          maxFrames 0 [] [] [] with
      | some (c, br, fs, u) => some (mkStats c br fs u)
      | none => none
  else
    match scanLoop data.length data 0 maxFrames 0 [] [] [] with
    | some (c, br, fs, u) => some (mkStats c br fs u)
    | none => none

/-- The search loop of find_sync: reports the position of the first parseable
4-byte window, gives up past start_pos + 10000 or at end of stream. -/
def findSyncLoop (data : List Nat) (startPos pos : Nat) : Option Nat :=
  if pos + 4 ≤ data.length then
    if (FrameHeader.parse (byteAt data pos) (byteAt data (pos + 1))
        (byteAt data (pos + 2)) (byteAt data (pos + 3))).isSome then some pos
    else if pos + 1 > startPos + 10000 then none
    else findSyncLoop data startPos (pos + 1)
  else none
termination_by startPos + 10001 - pos
decreasing_by omega

/-- find_sync from src/mp3/frame.rs; the outer `none` models the io::Error of
the unguarded header reads on streams shorter than the ID3v2 prelude. -/
def find_sync (data : List Nat) : Option (Option Nat) :=
  if data.length < 3 then none
  else if data.take 3 = [73, 68, 51] then
    if data.length < 10 then none
    else
      some (findSyncLoop data
        (10 + syncsafe (byteAt data 6) (byteAt data 7) (byteAt data 8) (byteAt data 9))
        (10 + syncsafe (byteAt data 6) (byteAt data 7) (byteAt data 8) (byteAt data 9)))
  else some (findSyncLoop data 0 0)

/-! ## LAME/Xing extraction (src/mp3/lame.rs)

Strings are modelled as their UTF-8 byte lists; Rust str::from_utf8 is
modelled by an explicit UTF-8 validity check, and trim_end_matches on NUL
by dropping trailing zero bytes.  LameHeader.extract returns a nested
Option: the outer `none` models a Rust panic (an out-of-bounds slice),
the inner level is the function's Option result. -/

structure LameHeader where
  encoder : List Nat
  lowpass : Option Nat
  vbrMethod : Option Nat
  quality : Option Nat
  isVbrHeader : Bool
  totalFrames : Option Nat
  totalBytes : Option Nat
deriving DecidableEq

def XING_MARKER : List Nat := [88, 105, 110, 103]

def INFO_MARKER : List Nat := [73, 110, 102, 111]

def LAME_MARKER : List Nat := [76, 65, 77, 69]

def LAVC_MARKER : List Nat := [76, 97, 118, 99]

/-- find_pattern from src/mp3/lame.rs: index of the first window equal to the
needle. -/
def findPattern (haystack needle : List Nat) : Option Nat :=
  if needle.length ≤ haystack.length then
    (List.range (haystack.length - needle.length + 1)).find?
      (fun i => (haystack.drop i).take needle.length == needle)
  else none

def utf8Cont (b : Nat) : Bool := decide (0x80 ≤ b ∧ b ≤ 0xBF)

/-- Validity of a byte list as UTF-8 (RFC 3629: no overlong forms, no
surrogates, maximum U+10FFFF), as checked by Rust str::from_utf8. -/
def utf8Valid : List Nat → Bool
  | [] => true
  | b :: rest =>
    if b ≤ 0x7F then utf8Valid rest
    else if 0xC2 ≤ b ∧ b ≤ 0xDF then
      match rest with
      | c1 :: rest2 => utf8Cont c1 && utf8Valid rest2
      | [] => false
    else if b = 0xE0 then
      match rest with
      | c1 :: c2 :: rest2 => decide (0xA0 ≤ c1 ∧ c1 ≤ 0xBF) && utf8Cont c2 && utf8Valid rest2
      | _ => false
    else if (0xE1 ≤ b ∧ b ≤ 0xEC) ∨ b = 0xEE ∨ b = 0xEF then
      match rest with
      | c1 :: c2 :: rest2 => utf8Cont c1 && utf8Cont c2 && utf8Valid rest2
      | _ => false
    else if b = 0xED then
      match rest with
      | c1 :: c2 :: rest2 => decide (0x80 ≤ c1 ∧ c1 ≤ 0x9F) && utf8Cont c2 && utf8Valid rest2
      | _ => false
    else if b = 0xF0 then
      match rest with
      | c1 :: c2 :: c3 :: rest2 =>
        decide (0x90 ≤ c1 ∧ c1 ≤ 0xBF) && utf8Cont c2 && utf8Cont c3 && utf8Valid rest2
      | _ => false
    else if 0xF1 ≤ b ∧ b ≤ 0xF3 then
      match rest with
      | c1 :: c2 :: c3 :: rest2 => utf8Cont c1 && utf8Cont c2 && utf8Cont c3 && utf8Valid rest2
      | _ => false
    else if b = 0xF4 then
      match rest with
      | c1 :: c2 :: c3 :: rest2 =>
        decide (0x80 ≤ c1 ∧ c1 ≤ 0x8F) && utf8Cont c2 && utf8Cont c3 && utf8Valid rest2
      | _ => false
    else false

/-- trim_end_matches on the NUL character. -/
def trimNulTail (l : List Nat) : List Nat := (l.reverse.dropWhile (fun b => b == 0)).reverse

/-- Big-endian u32 from four bytes of the region. -/
def be32 (region : List Nat) (i : Nat) : Nat :=
  byteAt region i * 16777216 + byteAt region (i + 1) * 65536
    + byteAt region (i + 2) * 256 + byteAt region (i + 3)

/-- The encoder-version assignment: the bytes from `start` to `stop`
(exclusive) become the encoder string when they are valid UTF-8, with
trailing NULs stripped; otherwise the field keeps its empty default. -/
def encoderField (region : List Nat) (start stop : Nat) : List Nat :=
  if utf8Valid ((region.drop start).take (stop - start)) then
    trimNulTail ((region.drop start).take (stop - start))
  else []

/-- The LAME-tag branch (version bytes, lowpass at offset 10, VBR method and
quality nibbles at offset 9). -/
def lameVersionFill (region : List Nat) (lamePos : Nat) (isVbr : Bool)
    (tf tb : Option Nat) : LameHeader :=
  { encoder := encoderField region lamePos (min (lamePos + 9) region.length)
    lowpass :=
      if lamePos + 10 < region.length then
        if 50 ≤ byteAt region (lamePos + 10) ∧ byteAt region (lamePos + 10) ≤ 220 then
          some (byteAt region (lamePos + 10) * 100)
        else none
      else none
    vbrMethod :=
      if lamePos + 9 < region.length then some (byteAt region (lamePos + 9) &&& 0x0F) else none
    quality :=
      if lamePos + 9 < region.length then some ((byteAt region (lamePos + 9) >>> 4) &&& 0x0F)
      else none
    isVbrHeader := isVbr
    totalFrames := tf
    totalBytes := tb }

/-- The Lavc branch: 12 version bytes, no lowpass information. -/
def lavcFill (region : List Nat) (lavcPos : Nat) (isVbr : Bool)
    (tf tb : Option Nat) : LameHeader :=
  { encoder := encoderField region lavcPos (min (lavcPos + 12) region.length)
    lowpass := none
    vbrMethod := none
    quality := none
    isVbrHeader := isVbr
    totalFrames := tf
    totalBytes := tb }

/-- The version and lowpass extraction done by the 500-byte fallback (it does
not read the VBR-method/quality byte). -/
def fallbackFill (region : List Nat) (lamePos : Nat) (isVbr : Bool)
    (tf tb : Option Nat) : LameHeader :=
  { encoder := encoderField region lamePos (min (lamePos + 9) region.length)
    lowpass :=
      if lamePos + 10 < region.length then
        if 50 ≤ byteAt region (lamePos + 10) ∧ byteAt region (lamePos + 10) ≤ 220 then
          some (byteAt region (lamePos + 10) * 100)
        else none
      else none
    vbrMethod := none
    quality := none
    isVbrHeader := isVbr
    totalFrames := tf
    totalBytes := tb }

/-- Lines 174-196 of src/mp3/lame.rs: search the first 500 bytes for "LAME";
if found, apply the fallback extraction to the header state accumulated so
far; otherwise return the bare header when a Xing/Info marker had been found,
and `None` when none had. -/
def fallbackSearch (region : List Nat) (isVbr : Bool) (tf tb : Option Nat)
    (markerFound : Bool) : Option (Option LameHeader) :=
  match findPattern (region.take (min region.length 500)) LAME_MARKER with
  | some lamePos => some (some (fallbackFill region lamePos isVbr tf tb))
  | none =>
    if markerFound then some (some ⟨[], none, none, none, isVbr, tf, tb⟩) else some none

/-- The flag-gated Xing fields: returns (total_frames, total_bytes, offset
after the frames/bytes/TOC/quality fields).  The frames and bytes reads are
bounds-checked; the TOC and quality skips are not. -/
def xingFields (region : List Nat) (pos flags : Nat) : Option Nat × Option Nat × Nat :=
  let p1 : Option Nat × Nat :=
    if flags &&& 0x01 ≠ 0 ∧ pos + 8 + 4 ≤ region.length then
      (some (be32 region (pos + 8)), pos + 8 + 4)
    else (none, pos + 8)
  let p2 : Option Nat × Nat :=
    if flags &&& 0x02 ≠ 0 ∧ p1.2 + 4 ≤ region.length then
      (some (be32 region p1.2), p1.2 + 4)
    else (none, p1.2)
  let off3 := if flags &&& 0x04 ≠ 0 then p2.2 + 100 else p2.2
  (p1.1, p2.1, if flags &&& 0x08 ≠ 0 then off3 + 4 else off3)

/-- The search for a LAME/Lavc tag in the 50 bytes after the Xing data.  The
Rust code slices `search_region[off4 .. min (off4+50) len]`; when the
unchecked TOC/quality skips pushed `off4` past that end the slice panics,
which the outer `none` models. -/
def afterFields (region : List Nat) (isVbr : Bool) (tf tb : Option Nat)
    (off4 : Nat) : Option (Option LameHeader) :=
  if off4 ≤ min (off4 + 50) region.length then
    match findPattern ((region.drop off4).take (min (off4 + 50) region.length - off4))
        LAME_MARKER with
    | some rel => some (some (lameVersionFill region (off4 + rel) isVbr tf tb))
    | none =>
      match findPattern ((region.drop off4).take (min (off4 + 50) region.length - off4))
          LAVC_MARKER with
      | some rel => some (some (lavcFill region (off4 + rel) isVbr tf tb))
      | none => fallbackSearch region isVbr tf tb true
  else none

/-- Processing of a found Xing/Info marker: read the 32-bit flags when the
marker leaves room for them, walk the flag-gated fields, then look for the
encoder tag; a marker too close to the window end falls through to the
fallback with the bare header state. -/
def afterMarker (region : List Nat) (pos : Nat) (isVbr : Bool) : Option (Option LameHeader) :=
  if pos + 8 ≤ region.length then
    afterFields region isVbr
      (xingFields region pos (be32 region (pos + 4))).1
      (xingFields region pos (be32 region (pos + 4))).2.1
      (xingFields region pos (be32 region (pos + 4))).2.2
  else fallbackSearch region isVbr none none true

/-- LameHeader::extract from src/mp3/lame.rs on the first 2048 bytes. -/
def LameHeader.extract (data : List Nat) : Option (Option LameHeader) :=
  match findPattern (data.take (min data.length 2048)) XING_MARKER,
      findPattern (data.take (min data.length 2048)) INFO_MARKER with
  | some x, _ => afterMarker (data.take (min data.length 2048)) x true
  | none, some i => afterMarker (data.take (min data.length 2048)) i false
  | none, none => fallbackSearch (data.take (min data.length 2048)) false none none false

/-- Input on which the claim-C3 gating and the code disagree: "LAME" at
offset 0 with lowpass byte 160 at offset 10, a Xing marker at offset 11 with a
zero flags word, and 50 trailing zero bytes, so that no LAME/Lavc tag follows
the Xing data. -/
def c3data : List Nat :=
  [76, 65, 77, 69, 0, 0, 0, 0, 0, 0, 160] ++ XING_MARKER ++ [0, 0, 0, 0]
    ++ List.replicate 50 0

/-- The tag search as claim C3 words it: identical to afterFields except that
a missing LAME/Lavc tag yields the bare header instead of consulting the
500-byte fallback. -/
def afterFieldsClaimC3 (region : List Nat) (isVbr : Bool) (tf tb : Option Nat)
    (off4 : Nat) : Option (Option LameHeader) :=
  if off4 ≤ min (off4 + 50) region.length then
    match findPattern ((region.drop off4).take (min (off4 + 50) region.length - off4))
        LAME_MARKER with
    | some rel => some (some (lameVersionFill region (off4 + rel) isVbr tf tb))
    | none =>
      match findPattern ((region.drop off4).take (min (off4 + 50) region.length - off4))
          LAVC_MARKER with
      | some rel => some (some (lavcFill region (off4 + rel) isVbr tf tb))
      | none => some (some ⟨[], none, none, none, isVbr, tf, tb⟩)
  else none

def afterMarkerClaimC3 (region : List Nat) (pos : Nat) (isVbr : Bool) :
    Option (Option LameHeader) :=
  if pos + 8 ≤ region.length then
    afterFieldsClaimC3 region isVbr
      (xingFields region pos (be32 region (pos + 4))).1
      (xingFields region pos (be32 region (pos + 4))).2.1
      (xingFields region pos (be32 region (pos + 4))).2.2
  else some (some ⟨[], none, none, none, isVbr, none, none⟩)

/-- Extraction as claim C3 describes it: the 500-byte LAME fallback is
consulted only when no Xing/Info marker was found, and a failed fallback then
yields absent; all other steps are those of LameHeader.extract. -/
def extractClaimC3 (data : List Nat) : Option (Option LameHeader) :=
  match findPattern (data.take (min data.length 2048)) XING_MARKER,
      findPattern (data.take (min data.length 2048)) INFO_MARKER with
  | some x, _ => afterMarkerClaimC3 (data.take (min data.length 2048)) x true
  | none, some i => afterMarkerClaimC3 (data.take (min data.length 2048)) i false
  | none, none => fallbackSearch (data.take (min data.length 2048)) false none none false

/-! ## Lowpass rules (src/mp3/lame.rs) and scoring (src/analyzer) -/

def expected_lowpass_for_bitrate (bitrate : Nat) : Nat :=
  if 320 ≤ bitrate then 20500
  else if 256 ≤ bitrate then 20000
  else if 224 ≤ bitrate then 19500
  else if 192 ≤ bitrate then 18500
  else if 160 ≤ bitrate then 17500
  else if 128 ≤ bitrate then 16000
  else if 112 ≤ bitrate then 15500
  else if 96 ≤ bitrate then 15000
  else 14000

def min_acceptable_lowpass (bitrate : Nat) : Nat :=
  if 256 ≤ bitrate then 18000
  else if 192 ≤ bitrate then 17000
  else if 160 ≤ bitrate then 16000
  else if 128 ≤ bitrate then 15000
  else 0

/-- The likely-source match inside check_lowpass_mismatch, keyed purely on the
actual lowpass. -/
def likelySource (lp : Nat) : String :=
  if lp ≤ 11000 then "64kbps or lower"
  else if lp ≤ 14000 then "96kbps"
  else if lp ≤ 16000 then "128kbps"
  else if lp ≤ 17500 then "160kbps"
  else if lp ≤ 18500 then "192kbps"
  else "lower bitrate"

/-- check_lowpass_mismatch from src/mp3/lame.rs:
(is_suspicious, expected_lowpass, reason). -/
def check_lowpass_mismatch (bitrate actual : Nat) : Bool × Nat × Option String :=
  if 0 < min_acceptable_lowpass bitrate ∧ 0 < actual
      ∧ actual < min_acceptable_lowpass bitrate then
    (true, expected_lowpass_for_bitrate bitrate,
      some ("Lowpass " ++ toString actual ++ "Hz suggests transcode from "
        ++ likelySource actual ++ " source"))
  else (false, expected_lowpass_for_bitrate bitrate, none)

structure ScoreAcc where
  score : Nat
  flags : List String
deriving DecidableEq

/-- Rule R1 of binary::analyze (src/analyzer/binary.rs lines 62-78): when a
lowpass value was extracted and check_lowpass_mismatch flags it, add 35 points
and emit the lowpass_mismatch flag. -/
def applyLowpassRule (bitrate : Nat) (lowpass : Option Nat) (acc : ScoreAcc) : ScoreAcc :=
  match lowpass with
  | none => acc
  | some actual =>
    if (check_lowpass_mismatch bitrate actual).1 then
      { score := acc.score + 35
        flags := acc.flags ++ ["lowpass_mismatch(" ++ toString actual ++ "Hz)"] }
    else acc

def agreementBonus (binary spectral : Nat) : Nat :=
  if 30 ≤ spectral ∧ 20 ≤ binary then 15 else 0

/-- The score combination of Analyzer::analyze (src/analyzer/mod.rs lines
190-198): sum, conditional +15 agreement bonus, clamp to 100. -/
def combinedScore (binary spectral : Nat) : Nat :=
  min (binary + spectral + agreementBonus binary spectral) 100

inductive Verdict
  | Ok
  | Suspect
  | Transcode
  | Error
deriving DecidableEq

/-- The verdict selection of Analyzer::analyze (src/analyzer/mod.rs lines
205-211). -/
def verdictOf (suspectThreshold transcodeThreshold combined : Nat) : Verdict :=
  if transcodeThreshold ≤ combined then .Transcode
  else if suspectThreshold ≤ combined then .Suspect
  else .Ok

/-- Severity ordering OK < SUSPECT < TRANSCODE from the specification;
ERROR is never produced by verdictOf. -/
def verdictRank : Verdict → Nat
  | .Ok => 0
  | .Suspect => 1
  | .Transcode => 2
  | .Error => 3

/-! ## Properties -/

/-- C1: the frame size the code computes does NOT match the specification formula
for Layer I headers with the padding bit set.  The header
0xFF 0xFF 0x92 0x00 is MPEG1, Layer I, 288 kbps, 44100 Hz with padding: the code
yields frame size 328 while the spec formula yields 316, and the padded frame is
16 bytes (not 4) larger than its unpadded variant 0xFF 0xFF 0x90 0x00.  For
Layer III the code does match the formula (418 on 0xFF 0xFB 0x92 0x00). -/
theorem C1_layer1_padding_frame_size :
    (FrameHeader.parse 0xFF 0xFF 0x92 0x00).map (fun h => h.frameSize) = some 328
    ∧ specFrameSize .Layer1 288 44100 true = 316
    ∧ (FrameHeader.parse 0xFF 0xFF 0x90 0x00).map (fun h => h.frameSize) = some 312
    ∧ (FrameHeader.parse 0xFF 0xFB 0x92 0x00).map (fun h => h.frameSize) = some 418
    ∧ specFrameSize .Layer3 128 44100 true = 418 := by
  refine ⟨?_, ?_, ?_, ?_, ?_⟩ <;> rfl

/-- C4: the parser is total and rejecting: a missing sync word, the reserved
version bits 1, the reserved layer bits 0, bitrate index 0 or 15, or
sample-rate index 3 each force the parse to fail with no partial result. -/
theorem C4_parser_rejects (b0 b1 b2 b3 : Nat)
    (h : ¬(b0 = 0xFF ∧ b1 &&& 0xE0 = 0xE0)
       ∨ (b1 >>> 3) &&& 0x03 = 1
       ∨ (b1 >>> 1) &&& 0x03 = 0
       ∨ (b2 >>> 4) &&& 0x0F = 0
       ∨ (b2 >>> 4) &&& 0x0F = 15
       ∨ (b2 >>> 2) &&& 0x03 = 3) :
    FrameHeader.parse b0 b1 b2 b3 = none := by
  unfold FrameHeader.parse
  by_cases hs : (b0 = 0xFF ∧ b1 &&& 0xE0 = 0xE0)
  · rw [if_pos hs]
    rcases h with h | h | h | h | h | h
    · exact absurd hs h
    · rw [h]
      rfl
    · rcases hv : decodeVersion ((b1 >>> 3) &&& 0x03) with _ | v
      · rfl
      · rw [h]
        rfl
    · rcases hv : decodeVersion ((b1 >>> 3) &&& 0x03) with _ | v
      · rfl
      · rcases hl : decodeLayer ((b1 >>> 1) &&& 0x03) with _ | l
        · rfl
        · rw [h]
          have hb : bitrateFor v l 0 = 0 := by cases v <;> cases l <;> rfl
          simp [hb]
    · rcases hv : decodeVersion ((b1 >>> 3) &&& 0x03) with _ | v
      · rfl
      · rcases hl : decodeLayer ((b1 >>> 1) &&& 0x03) with _ | l
        · rfl
        · rw [h]
          have hb : bitrateFor v l 15 = 0 := by cases v <;> cases l <;> rfl
          simp [hb]
    · rcases hv : decodeVersion ((b1 >>> 3) &&& 0x03) with _ | v
      · rfl
      · rcases hl : decodeLayer ((b1 >>> 1) &&& 0x03) with _ | l
        · rfl
        · rw [h]
          have hsr : sampleRateFor v 3 = 0 := by cases v <;> rfl
          by_cases hb : bitrateFor v l ((b2 >>> 4) &&& 0x0F) = 0
          · simp [hb]
          · simp [hb, hsr]
  · rw [if_neg hs]

/-- C4 witness: the all-zero four bytes have no sync word and are rejected. -/
theorem C4_parser_rejects_witness :
    (¬((0 : Nat) = 0xFF ∧ (0 : Nat) &&& 0xE0 = 0xE0)) ∧ FrameHeader.parse 0 0 0 0 = none :=
  ⟨by decide, C4_parser_rejects 0 0 0 0 (Or.inl (by decide))⟩

/-! ## Scanner lemmas -/

lemma byteAt_append (pre s : List Nat) (i : Nat) :
    byteAt (pre ++ s) (pre.length + i) = byteAt s i := by
  unfold byteAt
  rw [List.getD_append_right pre s 0 (pre.length + i) (Nat.le_add_right _ _)]
  congr 1
  omega

lemma scanLoop_guard_false (fuel : Nat) (data : List Nat) (pos mf c : Nat)
    (br fs u : List Nat) (h : ¬(c < mf ∧ pos + 4 ≤ data.length)) :
    scanLoop fuel data pos mf c br fs u = some (c, br, fs, u) := by
  rw [scanLoop.eq_def, if_neg h]

lemma scanLoop_isSome (fuel : Nat) : ∀ (data : List Nat) (pos mf c : Nat) (br fs u : List Nat),
    data.length ≤ fuel + pos → (scanLoop fuel data pos mf c br fs u).isSome = true := by
  induction fuel with
  | zero =>
    intro data pos mf c br fs u h
    rw [scanLoop_guard_false]
    · rfl
    · rintro ⟨-, h4⟩
      omega
  | succ fuel ih =>
    intro data pos mf c br fs u h
    rw [scanLoop]
    by_cases hg : (c < mf ∧ pos + 4 ≤ data.length)
    · rw [if_pos hg]
      rcases hp : FrameHeader.parse (byteAt data pos) (byteAt data (pos + 1))
          (byteAt data (pos + 2)) (byteAt data (pos + 3)) with _ | frame
      · exact ih data (pos + 1) mf c br fs u (by omega)
      · have h4 : 4 ≤ max 4 frame.frameSize := le_max_left _ _
        exact ih data (pos + max 4 frame.frameSize) mf (c + 1) _ _ _ (by omega)
    · rw [if_neg hg]
      rfl

lemma scanLoop_fuel_eq (f1 : Nat) : ∀ (f2 : Nat) (data : List Nat) (pos mf c : Nat)
    (br fs u : List Nat), data.length ≤ f1 + pos → data.length ≤ f2 + pos →
    scanLoop f1 data pos mf c br fs u = scanLoop f2 data pos mf c br fs u := by
  induction f1 with
  | zero =>
    intro f2 data pos mf c br fs u h1 h2
    have hg : ¬(c < mf ∧ pos + 4 ≤ data.length) := by
      rintro ⟨-, h4⟩
      omega
    rw [scanLoop_guard_false _ _ _ _ _ _ _ _ hg, scanLoop_guard_false _ _ _ _ _ _ _ _ hg]
  | succ f1 ih =>
    intro f2 data pos mf c br fs u h1 h2
    by_cases hg : (c < mf ∧ pos + 4 ≤ data.length)
    · rcases f2 with _ | f2
      · exfalso
        omega
      · rw [scanLoop, if_pos hg]
        conv_rhs => rw [scanLoop, if_pos hg]
        rcases hp : FrameHeader.parse (byteAt data pos) (byteAt data (pos + 1))
            (byteAt data (pos + 2)) (byteAt data (pos + 3)) with _ | frame
        · exact ih f2 data (pos + 1) mf c br fs u (by omega) (by omega)
        · have h4 : 4 ≤ max 4 frame.frameSize := le_max_left _ _
          exact ih f2 data (pos + max 4 frame.frameSize) mf (c + 1) _ _ _ (by omega) (by omega)
    · rw [scanLoop_guard_false _ _ _ _ _ _ _ _ hg, scanLoop_guard_false _ _ _ _ _ _ _ _ hg]

lemma scanLoop_shift (fuel : Nat) : ∀ (pre s : List Nat) (pos mf c : Nat) (br fs u : List Nat),
    scanLoop fuel (pre ++ s) (pre.length + pos) mf c br fs u = scanLoop fuel s pos mf c br fs u := by
  induction fuel with
  | zero =>
    intro pre s pos mf c br fs u
    by_cases hg : (c < mf ∧ pos + 4 ≤ s.length)
    · rw [scanLoop, if_pos (by simp only [List.length_append]; omega), scanLoop, if_pos hg]
    · rw [scanLoop_guard_false _ _ _ _ _ _ _ _ (by simp only [List.length_append]; omega),
        scanLoop_guard_false _ _ _ _ _ _ _ _ hg]
  | succ fuel ih =>
    intro pre s pos mf c br fs u
    by_cases hg : (c < mf ∧ pos + 4 ≤ s.length)
    · rw [scanLoop, if_pos (by simp only [List.length_append]; omega)]
      conv_rhs => rw [scanLoop, if_pos hg]
      have b0 : byteAt (pre ++ s) (pre.length + pos) = byteAt s pos := byteAt_append pre s pos
      have b1 : byteAt (pre ++ s) (pre.length + pos + 1) = byteAt s (pos + 1) := by
        rw [show pre.length + pos + 1 = pre.length + (pos + 1) by omega]
        exact byteAt_append pre s (pos + 1)
      have b2 : byteAt (pre ++ s) (pre.length + pos + 2) = byteAt s (pos + 2) := by
        rw [show pre.length + pos + 2 = pre.length + (pos + 2) by omega]
        exact byteAt_append pre s (pos + 2)
      have b3 : byteAt (pre ++ s) (pre.length + pos + 3) = byteAt s (pos + 3) := by
        rw [show pre.length + pos + 3 = pre.length + (pos + 3) by omega]
        exact byteAt_append pre s (pos + 3)
      rw [b0, b1, b2, b3]
      rcases hp : FrameHeader.parse (byteAt s pos) (byteAt s (pos + 1))
          (byteAt s (pos + 2)) (byteAt s (pos + 3)) with _ | frame
      · exact ih pre s (pos + 1) mf c br fs u
      · change scanLoop fuel (pre ++ s) (pre.length + pos + max 4 frame.frameSize) mf (c + 1)
            (br ++ [frame.bitrate]) (fs ++ [frame.frameSize])
            (if frame.bitrate ∈ u then u else u ++ [frame.bitrate])
          = scanLoop fuel s (pos + max 4 frame.frameSize) mf (c + 1)
            (br ++ [frame.bitrate]) (fs ++ [frame.frameSize])
            (if frame.bitrate ∈ u then u else u ++ [frame.bitrate])
        rw [show pre.length + pos + max 4 frame.frameSize
            = pre.length + (pos + max 4 frame.frameSize) by omega]
        exact ih pre s (pos + max 4 frame.frameSize) mf (c + 1) _ _ _
    · rw [scanLoop_guard_false _ _ _ _ _ _ _ _ (by simp only [List.length_append]; omega),
        scanLoop_guard_false _ _ _ _ _ _ _ _ hg]

lemma foldl_min_le_init : ∀ (xs : List Nat) (x : Nat), xs.foldl min x ≤ x := by
  intro xs
  induction xs with
  | nil => intro x; exact le_refl x
  | cons y ys ih =>
    intro x
    calc (y :: ys).foldl min x = ys.foldl min (min x y) := rfl
    _ ≤ min x y := ih (min x y)
    _ ≤ x := min_le_left _ _

lemma foldl_min_le_mem : ∀ (xs : List Nat) (x y : Nat), y ∈ xs → xs.foldl min x ≤ y := by
  intro xs
  induction xs with
  | nil => intro x y hy; cases hy
  | cons z zs ih =>
    intro x y hy
    rcases List.mem_cons.mp hy with h | h
    · subst h
      calc (y :: zs).foldl min x = zs.foldl min (min x y) := rfl
      _ ≤ min x y := foldl_min_le_init _ _
      _ ≤ y := min_le_right _ _
    · exact ih (min x z) y h

lemma foldl_min_mem : ∀ (xs : List Nat) (x : Nat), xs.foldl min x = x ∨ xs.foldl min x ∈ xs := by
  intro xs
  induction xs with
  | nil => intro x; exact Or.inl rfl
  | cons z zs ih =>
    intro x
    rcases ih (min x z) with h | h
    · rcases Nat.le_total x z with hxz | hzx
      · left
        rw [show (z :: zs).foldl min x = zs.foldl min (min x z) from rfl, h]
        exact min_eq_left hxz
      · right
        rw [show (z :: zs).foldl min x = zs.foldl min (min x z) from rfl, h,
          min_eq_right hzx]
        exact List.mem_cons_self z zs
    · right
      exact List.mem_cons_of_mem z h

lemma foldl_max_init_le : ∀ (xs : List Nat) (x : Nat), x ≤ xs.foldl max x := by
  intro xs
  induction xs with
  | nil => intro x; exact le_refl x
  | cons y ys ih =>
    intro x
    calc x ≤ max x y := le_max_left _ _
    _ ≤ ys.foldl max (max x y) := ih (max x y)
    _ = (y :: ys).foldl max x := rfl

lemma foldl_max_mem_le : ∀ (xs : List Nat) (x y : Nat), y ∈ xs → y ≤ xs.foldl max x := by
  intro xs
  induction xs with
  | nil => intro x y hy; cases hy
  | cons z zs ih =>
    intro x y hy
    rcases List.mem_cons.mp hy with h | h
    · subst h
      calc y ≤ max x y := le_max_right _ _
      _ ≤ zs.foldl max (max x y) := foldl_max_init_le _ _
      _ = (y :: zs).foldl max x := rfl
    · exact ih (max x z) y h

lemma foldl_max_mem : ∀ (xs : List Nat) (x : Nat), xs.foldl max x = x ∨ xs.foldl max x ∈ xs := by
  intro xs
  induction xs with
  | nil => intro x; exact Or.inl rfl
  | cons z zs ih =>
    intro x
    rcases ih (max x z) with h | h
    · rcases Nat.le_total x z with hxz | hzx
      · right
        rw [show (z :: zs).foldl max x = zs.foldl max (max x z) from rfl, h,
          max_eq_right hxz]
        exact List.mem_cons_self z zs
      · left
        rw [show (z :: zs).foldl max x = zs.foldl max (max x z) from rfl, h]
        exact max_eq_left hzx
    · right
      exact List.mem_cons_of_mem z h

lemma minList_spec (br : List Nat) (h : br ≠ []) :
    minList br ∈ br ∧ ∀ b ∈ br, minList br ≤ b := by
  rcases br with _ | ⟨x, xs⟩
  · exact absurd rfl h
  · constructor
    · rcases foldl_min_mem xs x with h' | h'
      · rw [show minList (x :: xs) = xs.foldl min x from rfl, h']
        exact List.mem_cons_self x xs
      · exact List.mem_cons_of_mem x h'
    · intro b hb
      rcases List.mem_cons.mp hb with h' | h'
      · subst h'
        exact foldl_min_le_init xs b
      · exact foldl_min_le_mem xs x b h'

lemma maxList_spec (br : List Nat) (h : br ≠ []) :
    maxList br ∈ br ∧ ∀ b ∈ br, b ≤ maxList br := by
  rcases br with _ | ⟨x, xs⟩
  · exact absurd rfl h
  · constructor
    · rcases foldl_max_mem xs x with h' | h'
      · rw [show maxList (x :: xs) = xs.foldl max x from rfl, h']
        exact List.mem_cons_self x xs
      · exact List.mem_cons_of_mem x h'
    · intro b hb
      rcases List.mem_cons.mp hb with h' | h'
      · subst h'
        exact foldl_max_init_le xs b
      · exact foldl_max_mem_le xs x b h'

/-- Invariant of the scan loop: the hash-set model stays duplicate-free and
holds exactly the values of the recorded bitrate list, the frame count equals
the number of recorded bitrates, and the two recorded lists have equal
length. -/
lemma scanLoop_inv (fuel : Nat) : ∀ (data : List Nat) (pos mf c : Nat) (br fs u : List Nat)
    (rc : Nat) (rbr rfs ru : List Nat),
    scanLoop fuel data pos mf c br fs u = some (rc, rbr, rfs, ru) →
    u.Nodup → u.toFinset = br.toFinset → c = br.length → fs.length = br.length →
    ru.Nodup ∧ ru.toFinset = rbr.toFinset ∧ rc = rbr.length ∧ rfs.length = rbr.length := by
  induction fuel with
  | zero =>
    intro data pos mf c br fs u rc rbr rfs ru heq hu huf hc hf
    rw [scanLoop.eq_def] at heq
    by_cases hg : (c < mf ∧ pos + 4 ≤ data.length)
    · rw [if_pos hg] at heq
      cases heq
    · rw [if_neg hg] at heq
      simp only [Option.some.injEq, Prod.mk.injEq] at heq
      obtain ⟨e1, e2, e3, e4⟩ := heq
      subst e1; subst e2; subst e3; subst e4
      exact ⟨hu, huf, hc, hf⟩
  | succ fuel ih =>
    intro data pos mf c br fs u rc rbr rfs ru heq hu huf hc hf
    rw [scanLoop] at heq
    by_cases hg : (c < mf ∧ pos + 4 ≤ data.length)
    · rw [if_pos hg] at heq
      rcases hp : FrameHeader.parse (byteAt data pos) (byteAt data (pos + 1))
          (byteAt data (pos + 2)) (byteAt data (pos + 3)) with _ | frame
      · rw [hp] at heq
        exact ih data (pos + 1) mf c br fs u rc rbr rfs ru heq hu huf hc hf
      · rw [hp] at heq
        refine ih data (pos + max 4 frame.frameSize) mf (c + 1) (br ++ [frame.bitrate])
          (fs ++ [frame.frameSize]) (if frame.bitrate ∈ u then u else u ++ [frame.bitrate])
          rc rbr rfs ru heq ?_ ?_ ?_ ?_
        · by_cases hm : frame.bitrate ∈ u
          · rw [if_pos hm]
            exact hu
          · rw [if_neg hm]
            rw [List.nodup_append]
            exact ⟨hu, List.nodup_singleton _, by
              intro a ha hax
              rw [List.mem_singleton.mp hax] at ha
              exact hm ha⟩
        · by_cases hm : frame.bitrate ∈ u
          · rw [if_pos hm]
            rw [List.toFinset_append, ← huf]
            have : ({frame.bitrate} : Finset Nat) ⊆ u.toFinset := by
              rw [Finset.singleton_subset_iff, List.mem_toFinset]
              exact hm
            simp [Finset.union_eq_left.mpr this]
          · rw [if_neg hm]
            rw [List.toFinset_append, List.toFinset_append, huf]
        · simp [hc]
        · simp [hf]
    · rw [if_neg hg] at heq
      simp only [Option.some.injEq, Prod.mk.injEq] at heq
      obtain ⟨e1, e2, e3, e4⟩ := heq
      subst e1; subst e2; subst e3; subst e4
      exact ⟨hu, huf, hc, hf⟩

lemma mkStats_props (c : Nat) (br fs u : List Nat)
    (hu : u.Nodup) (huf : u.toFinset = br.toFinset)
    (hc : c = br.length) (hf : fs.length = br.length) :
    ((mkStats c br fs u).isVbr = true ↔ 2 ≤ (mkStats c br fs u).bitrates.toFinset.card)
    ∧ (mkStats c br fs u).avgBitrate
        = (mkStats c br fs u).bitrates.sum / (mkStats c br fs u).bitrates.length
    ∧ (mkStats c br fs u).frameCount = (mkStats c br fs u).bitrates.length
    ∧ ((mkStats c br fs u).bitrates ≠ [] →
        (mkStats c br fs u).minBitrate ∈ (mkStats c br fs u).bitrates
        ∧ (mkStats c br fs u).maxBitrate ∈ (mkStats c br fs u).bitrates
        ∧ ∀ b ∈ (mkStats c br fs u).bitrates,
            (mkStats c br fs u).minBitrate ≤ b ∧ b ≤ (mkStats c br fs u).maxBitrate)
    ∧ ((mkStats c br fs u).frameCount = 0 →
        (mkStats c br fs u).avgBitrate = 0 ∧ (mkStats c br fs u).minBitrate = 0
        ∧ (mkStats c br fs u).maxBitrate = 0 ∧ (mkStats c br fs u).isVbr = false) := by
  by_cases hbr : br.isEmpty
  · have hbe : br = [] := List.isEmpty_iff.mp hbr
    subst hbe
    subst hc
    rw [mkStats, if_pos hbr]
    simp
  · have hne : br ≠ [] := fun e => by simp [e] at hbr
    rw [mkStats, if_neg hbr]
    have hcard : u.length = br.toFinset.card := by
      rw [← huf, List.toFinset_card_of_nodup hu]
    obtain ⟨hmin_mem, hmin_le⟩ := minList_spec br hne
    obtain ⟨hmax_mem, hmax_le⟩ := maxList_spec br hne
    refine ⟨?_, rfl, hc, ?_, ?_⟩
    · show decide (1 < u.length) = true ↔ 2 ≤ br.toFinset.card
      simp only [decide_eq_true_eq]
      omega
    · intro _
      exact ⟨hmin_mem, hmax_mem, fun b hb => ⟨hmin_le b hb, hmax_le b hb⟩⟩
    · intro h0
      have h0' : c = 0 := h0
      have hpos : 0 < br.length := List.length_pos.mpr hne
      omega

/-- C8: FrameStats invariants.  is_vbr holds exactly when at least two distinct
bitrate values were recorded, avg_bitrate is the truncating mean of the recorded
bitrates (0 when none), min/max are the extremes, frame_count counts the
recorded frames, and on an empty scan every numeric field is 0 and is_vbr is
false. -/
theorem C8_frame_stats (data : List Nat) (mf : Nat) (stats : FrameStats)
    (h : scan_frames data mf = some stats) :
    (stats.isVbr = true ↔ 2 ≤ stats.bitrates.toFinset.card)
    ∧ stats.avgBitrate = stats.bitrates.sum / stats.bitrates.length
    ∧ stats.frameCount = stats.bitrates.length
    ∧ (stats.bitrates ≠ [] →
        stats.minBitrate ∈ stats.bitrates ∧ stats.maxBitrate ∈ stats.bitrates
          ∧ ∀ b ∈ stats.bitrates, stats.minBitrate ≤ b ∧ b ≤ stats.maxBitrate)
    ∧ (stats.frameCount = 0 →
        stats.avgBitrate = 0 ∧ stats.minBitrate = 0 ∧ stats.maxBitrate = 0
          ∧ stats.isVbr = false) := by
  unfold scan_frames at h
  by_cases h3 : data.length < 3
  · rw [if_pos h3] at h
    injection h with h'
    subst h'
    simp [emptyStats]
  · rw [if_neg h3] at h
    by_cases hid : data.take 3 = [73, 68, 51]
    · rw [if_pos hid] at h
      by_cases h10 : data.length < 10
      · rw [if_pos h10] at h
        cases h
      · rw [if_neg h10] at h
        rcases hr : scanLoop data.length data
            (10 + syncsafe (byteAt data 6) (byteAt data 7) (byteAt data 8) (byteAt data 9))
            mf 0 [] [] [] with _ | ⟨rc, rbr, rfs, ru⟩
        · rw [hr] at h
          cases h
        · rw [hr] at h
          have h' : some (mkStats rc rbr rfs ru) = some stats := h
          injection h' with h''
          subst h''
          obtain ⟨i1, i2, i3, i4⟩ := scanLoop_inv data.length data _ mf 0 [] [] []
            rc rbr rfs ru hr List.nodup_nil rfl rfl rfl
          exact mkStats_props rc rbr rfs ru i1 i2 i3 i4
    · rw [if_neg hid] at h
      rcases hr : scanLoop data.length data 0 mf 0 [] [] [] with _ | ⟨rc, rbr, rfs, ru⟩
      · rw [hr] at h
        cases h
      · rw [hr] at h
        have h' : some (mkStats rc rbr rfs ru) = some stats := h
        injection h' with h''
        subst h''
        obtain ⟨i1, i2, i3, i4⟩ := scanLoop_inv data.length data 0 mf 0 [] [] []
          rc rbr rfs ru hr List.nodup_nil rfl rfl rfl
        exact mkStats_props rc rbr rfs ru i1 i2 i3 i4

/-- C8 witness: a single 128 kbps MPEG1 Layer III header scans to one recorded
frame with the stated aggregate fields. -/
theorem C8_frame_stats_witness :
    scan_frames [255, 251, 144, 0] 200 = some ⟨1, [128], [417], false, 128, 128, 128⟩
    ∧ ((⟨1, [128], [417], false, 128, 128, 128⟩ : FrameStats).isVbr = true
        ↔ 2 ≤ ([128] : List Nat).toFinset.card) := by
  have h := C8_frame_stats [255, 251, 144, 0] 200 ⟨1, [128], [417], false, 128, 128, 128⟩
    (by decide)
  exact ⟨by decide, h.1⟩

/-- C10: the frame-scan loop terminates: every iteration either exits or
strictly advances the cursor (by the frame size, at least 4, on an accepted
frame; by 1 on a rejected window), so fuel equal to the number of bytes
remaining always suffices, and scan_frames itself only reports failure for the
truncated-ID3v2 read error, never from the loop. -/
theorem C10_scan_terminates (data : List Nat) (pos mf c : Nat) (br fs u : List Nat)
    (fuel : Nat) (h : data.length ≤ fuel + pos) :
    (scanLoop fuel data pos mf c br fs u).isSome = true
    ∧ ∀ mf2, scan_frames data mf2 = none → data.take 3 = [73, 68, 51] ∧ data.length < 10 := by
  constructor
  · exact scanLoop_isSome fuel data pos mf c br fs u h
  · intro mf2 hnone
    unfold scan_frames at hnone
    by_cases h3 : data.length < 3
    · rw [if_pos h3] at hnone
      cases hnone
    · rw [if_neg h3] at hnone
      by_cases hid : data.take 3 = [73, 68, 51]
      · rw [if_pos hid] at hnone
        by_cases h10 : data.length < 10
        · exact ⟨hid, h10⟩
        · rw [if_neg h10] at hnone
          rcases hr : scanLoop data.length data
              (10 + syncsafe (byteAt data 6) (byteAt data 7) (byteAt data 8) (byteAt data 9))
              mf2 0 [] [] [] with _ | r
          · have := scanLoop_isSome data.length data
              (10 + syncsafe (byteAt data 6) (byteAt data 7) (byteAt data 8) (byteAt data 9))
              mf2 0 [] [] [] (by omega)
            rw [hr] at this
            cases this
          · rw [hr] at hnone
            obtain ⟨rc, rbr, rfs, ru⟩ := r
            have h' : some (mkStats rc rbr rfs ru) = none := hnone
            cases h'
      · rw [if_neg hid] at hnone
        rcases hr : scanLoop data.length data 0 mf2 0 [] [] [] with _ | r
        · have := scanLoop_isSome data.length data 0 mf2 0 [] [] [] (by omega)
          rw [hr] at this
          cases this
        · rw [hr] at hnone
          obtain ⟨rc, rbr, rfs, ru⟩ := r
          have h' : some (mkStats rc rbr rfs ru) = none := hnone
          cases h'

/-- C10 witness: one byte of data, fuel 1. -/
theorem C10_scan_terminates_witness :
    ([0] : List Nat).length ≤ 1 + 0 ∧ (scanLoop 1 [0] 0 1 0 [] [] []).isSome = true :=
  ⟨by decide, (C10_scan_terminates [0] 0 1 0 [] [] [] 1 (by decide)).1⟩

/-- C9: prepending a 10-byte ID3v2 header whose syncsafe size field matches the
length of the tag body does not change the scanner's output, and find_sync
locates the first frame at offset 10 + size when the stream starts with a
parseable frame header. -/
theorem C9_id3_skip (v1 v2 fl s0 s1 s2 s3 : Nat) (tag stream : List Nat) (mf : Nat)
    (hlen : tag.length = syncsafe s0 s1 s2 s3)
    (hid : stream.take 3 ≠ [73, 68, 51]) :
    scan_frames ([73, 68, 51, v1, v2, fl, s0, s1, s2, s3] ++ tag ++ stream) mf
      = scan_frames stream mf
    ∧ (4 ≤ stream.length →
        (FrameHeader.parse (byteAt stream 0) (byteAt stream 1) (byteAt stream 2)
          (byteAt stream 3)).isSome = true →
        find_sync ([73, 68, 51, v1, v2, fl, s0, s1, s2, s3] ++ tag ++ stream)
          = some (some (10 + tag.length))) := by
  have hprelen : ([73, 68, 51, v1, v2, fl, s0, s1, s2, s3] ++ tag).length = 10 + tag.length := by
    simp
    omega
  have hdata_len : ([73, 68, 51, v1, v2, fl, s0, s1, s2, s3] ++ tag ++ stream).length
      = 10 + (tag.length + stream.length) := by
    simp
    omega
  have htake : ([73, 68, 51, v1, v2, fl, s0, s1, s2, s3] ++ tag ++ stream).take 3
      = [73, 68, 51] := rfl
  have hb6 : byteAt ([73, 68, 51, v1, v2, fl, s0, s1, s2, s3] ++ tag ++ stream) 6 = s0 := rfl
  have hb7 : byteAt ([73, 68, 51, v1, v2, fl, s0, s1, s2, s3] ++ tag ++ stream) 7 = s1 := rfl
  have hb8 : byteAt ([73, 68, 51, v1, v2, fl, s0, s1, s2, s3] ++ tag ++ stream) 8 = s2 := rfl
  have hb9 : byteAt ([73, 68, 51, v1, v2, fl, s0, s1, s2, s3] ++ tag ++ stream) 9 = s3 := rfl
  have hsize : (10 : Nat)
        + syncsafe (byteAt ([73, 68, 51, v1, v2, fl, s0, s1, s2, s3] ++ tag ++ stream) 6)
          (byteAt ([73, 68, 51, v1, v2, fl, s0, s1, s2, s3] ++ tag ++ stream) 7)
          (byteAt ([73, 68, 51, v1, v2, fl, s0, s1, s2, s3] ++ tag ++ stream) 8)
          (byteAt ([73, 68, 51, v1, v2, fl, s0, s1, s2, s3] ++ tag ++ stream) 9)
      = 10 + tag.length := by
    rw [hb6, hb7, hb8, hb9, ← hlen]
  have hbyte : ∀ k, byteAt ([73, 68, 51, v1, v2, fl, s0, s1, s2, s3] ++ tag ++ stream)
      (10 + tag.length + k) = byteAt stream k := by
    intro k
    rw [show 10 + tag.length + k
        = ([73, 68, 51, v1, v2, fl, s0, s1, s2, s3] ++ tag).length + k by rw [hprelen]]
    exact byteAt_append _ _ k
  have h3 : ¬ (([73, 68, 51, v1, v2, fl, s0, s1, s2, s3] ++ tag ++ stream).length < 3) := by
    rw [hdata_len]
    omega
  have h10 : ¬ (([73, 68, 51, v1, v2, fl, s0, s1, s2, s3] ++ tag ++ stream).length < 10) := by
    rw [hdata_len]
    omega
  have hloop : scanLoop ([73, 68, 51, v1, v2, fl, s0, s1, s2, s3] ++ tag ++ stream).length
        ([73, 68, 51, v1, v2, fl, s0, s1, s2, s3] ++ tag ++ stream) (10 + tag.length)
        mf 0 [] [] []
      = scanLoop stream.length stream 0 mf 0 [] [] [] := by
    rw [show (10 + tag.length : Nat)
        = ([73, 68, 51, v1, v2, fl, s0, s1, s2, s3] ++ tag).length + 0 by rw [hprelen]; omega]
    rw [scanLoop_shift]
    refine scanLoop_fuel_eq _ _ stream 0 mf 0 [] [] [] ?_ ?_
    · rw [hdata_len]
      omega
    · omega
  constructor
  · unfold scan_frames
    rw [if_neg h3, if_pos htake, if_neg h10, hsize, hloop]
    by_cases hs3 : stream.length < 3
    · rw [if_pos hs3]
      rw [scanLoop_guard_false _ _ _ _ _ _ _ _ (by rintro ⟨-, h4⟩; omega)]
      rfl
    · rw [if_neg hs3, if_neg hid]
  · intro h4 hparse
    unfold find_sync
    rw [if_neg h3, if_pos htake, if_neg h10, hsize]
    have hg : (10 + tag.length) + 4
        ≤ ([73, 68, 51, v1, v2, fl, s0, s1, s2, s3] ++ tag ++ stream).length := by
      rw [hdata_len]
      omega
    rw [findSyncLoop, if_pos hg]
    have e0 := hbyte 0
    have e1 : byteAt ([73, 68, 51, v1, v2, fl, s0, s1, s2, s3] ++ tag ++ stream)
        (10 + tag.length + 1) = byteAt stream 1 := hbyte 1
    have e2 : byteAt ([73, 68, 51, v1, v2, fl, s0, s1, s2, s3] ++ tag ++ stream)
        (10 + tag.length + 2) = byteAt stream 2 := hbyte 2
    have e3 : byteAt ([73, 68, 51, v1, v2, fl, s0, s1, s2, s3] ++ tag ++ stream)
        (10 + tag.length + 3) = byteAt stream 3 := hbyte 3
    rw [show 10 + tag.length + 0 = 10 + tag.length by omega] at e0
    rw [e0, e1, e2, e3, if_pos hparse]

/-- C9 witness: a size-0 ID3v2 header in front of a single 128 kbps frame
header leaves the scan unchanged, and the first frame is found at offset 10. -/
theorem C9_id3_skip_witness :
    scan_frames ([73, 68, 51, 4, 0, 0, 0, 0, 0, 0] ++ [] ++ [255, 251, 144, 0]) 100
      = scan_frames [255, 251, 144, 0] 100
    ∧ find_sync ([73, 68, 51, 4, 0, 0, 0, 0, 0, 0] ++ [] ++ [255, 251, 144, 0])
      = some (some (10 + ([] : List Nat).length)) := by
  have h := C9_id3_skip 4 0 0 0 0 0 0 [] [255, 251, 144, 0] 100 (by decide) (by decide)
  exact ⟨h.1, h.2 (by decide) (by decide)⟩

/-- Validation of the extractor model against the repository's own unit-test
vector (Info header with all four flag fields, encoder "LAME3.100", lowpass
byte 205). -/
lemma lame_extract_test_vector :
    LameHeader.extract
      ([0xFF, 0xFB, 0x90, 0x00] ++ List.replicate 32 0
        ++ INFO_MARKER ++ [0, 0, 0, 0x0F]
        ++ [0, 0, 0x10, 0] ++ [0, 0x10, 0, 0]
        ++ List.replicate 100 0 ++ [0, 0, 0, 0x64]
        ++ [76, 65, 77, 69, 51, 46, 49, 48, 48] ++ [0x24] ++ [205]
        ++ List.replicate 100 0)
      = some (some ⟨[76, 65, 77, 69, 51, 46, 49, 48, 48], some 20500, some 4, some 2,
          false, some 4096, some 1048576⟩) := by
  decide

/-- C2: extraction is NOT panic-free.  On the 8-byte input consisting of
"Xing" followed by a flags word with only the TOC bit set, the unchecked
100-byte TOC skip pushes the tag-search offset to 108 while the window ends at
byte 8, and the Rust slice search_region[108..8] panics (the outer none).  By
contrast a Xing marker that merely leaves no room for the flags word is
recovered with a bare header, as the specification describes. -/
theorem C2_xing_toc_overrun_panics :
    LameHeader.extract [88, 105, 110, 103, 0, 0, 0, 4] = none
    ∧ LameHeader.extract [0, 0, 88, 105, 110, 103]
        = some (some ⟨[], none, none, none, true, none, none⟩) := by
  decide

/-- C3 counterexample: on c3data a Xing marker IS found, yet the code still
runs the 500-byte fallback (no LAME/Lavc tag follows the Xing data) and
returns the fallback-extracted encoder and lowpass, where the behaviour the
claim describes would return the bare header. -/
theorem C3_fallback_counterexample :
    (findPattern (c3data.take (min c3data.length 2048)) XING_MARKER).isSome = true
    ∧ LameHeader.extract c3data
        = some (some ⟨[76, 65, 77, 69], some 16000, none, none, true, none, none⟩)
    ∧ extractClaimC3 c3data = some (some ⟨[], none, none, none, true, none, none⟩)
    ∧ LameHeader.extract c3data ≠ extractClaimC3 c3data := by
  decide

/-- C3 amended: the 500-byte fallback runs when no Xing/Info marker was found
(in which case a failed fallback yields absent, and a successful one the
fallback extraction), and ALSO when a marker was found but no LAME/Lavc tag
was located after its data, as c3data exhibits. -/
theorem C3_fallback_amended :
    (∀ data : List Nat,
      findPattern (data.take (min data.length 2048)) XING_MARKER = none →
      findPattern (data.take (min data.length 2048)) INFO_MARKER = none →
      LameHeader.extract data
        = (match findPattern ((data.take (min data.length 2048)).take
              (min (data.take (min data.length 2048)).length 500)) LAME_MARKER with
           | some p =>
             some (some (fallbackFill (data.take (min data.length 2048)) p false none none))
           | none => some none))
    ∧ LameHeader.extract c3data
        = some (some ⟨[76, 65, 77, 69], some 16000, none, none, true, none, none⟩) := by
  constructor
  · intro data hx hi
    unfold LameHeader.extract
    rw [hx, hi]
    show fallbackSearch (data.take (min data.length 2048)) false none none false = _
    unfold fallbackSearch
    rcases hp : findPattern ((data.take (min data.length 2048)).take
        (min (data.take (min data.length 2048)).length 500)) LAME_MARKER with _ | p
    · rfl
    · rfl
  · decide

/-- C3 amended witness: three zero bytes have no marker and no fallback hit,
so extraction is absent. -/
theorem C3_fallback_amended_witness : LameHeader.extract [0, 0, 0] = some none := by
  have h := C3_fallback_amended.1 [0, 0, 0] (by decide) (by decide)
  exact h.trans (by decide)

/-- C5: the mismatch predicate holds exactly when the bitrate-keyed minimum is
positive, the actual lowpass is positive, and the actual lowpass is below the
minimum; the minimum table takes the specified values; and for bitrate 320
with lowpass 16000 Hz the rule fires, adding 35 points, emitting
lowpass_mismatch(16000Hz), with likely source "128kbps". -/
theorem C5_lowpass_mismatch :
    (∀ bitrate actual : Nat,
      (check_lowpass_mismatch bitrate actual).1 = true
        ↔ (0 < min_acceptable_lowpass bitrate ∧ 0 < actual
            ∧ actual < min_acceptable_lowpass bitrate))
    ∧ min_acceptable_lowpass 320 = 18000
    ∧ min_acceptable_lowpass 256 = 18000
    ∧ min_acceptable_lowpass 192 = 17000
    ∧ min_acceptable_lowpass 160 = 16000
    ∧ min_acceptable_lowpass 128 = 15000
    ∧ min_acceptable_lowpass 127 = 0
    ∧ (check_lowpass_mismatch 320 16000).1 = true
    ∧ likelySource 16000 = "128kbps"
    ∧ (check_lowpass_mismatch 320 16000).2.2
        = some "Lowpass 16000Hz suggests transcode from 128kbps source"
    ∧ applyLowpassRule 320 (some 16000) ⟨0, []⟩ = ⟨35, ["lowpass_mismatch(16000Hz)"]⟩ := by
  constructor
  · intro bitrate actual
    unfold check_lowpass_mismatch
    split_ifs with hc
    · simp [hc]
    · simp [hc]
  · decide

/-- C6: the combined score is min(100, binary + spectral + bonus) with the
bonus equal to 15 exactly when spectral is at least 30 and binary at least 20;
it never exceeds 100 and is monotone in both contributing scores. -/
theorem C6_combined_score (b s b2 s2 : Nat) (hb : b ≤ b2) (hs : s ≤ s2) :
    combinedScore b s = min 100 (b + s + agreementBonus b s)
    ∧ (agreementBonus b s = if 30 ≤ s ∧ 20 ≤ b then 15 else 0)
    ∧ combinedScore b s ≤ 100
    ∧ combinedScore b s ≤ combinedScore b2 s2 := by
  have hbonus : agreementBonus b s ≤ agreementBonus b2 s2 := by
    unfold agreementBonus
    split_ifs <;> omega
  refine ⟨?_, rfl, ?_, ?_⟩
  · rw [combinedScore, Nat.min_comm]
  · exact min_le_right _ _
  · exact min_le_min (by omega) (le_refl 100)

/-- C6 witness. -/
theorem C6_combined_score_witness :
    combinedScore 10 35 ≤ 100 ∧ combinedScore 10 35 ≤ combinedScore 25 40 := by
  have h := C6_combined_score 10 35 25 40 (by decide) (by decide)
  exact ⟨h.2.2.1, h.2.2.2⟩

/-- C7: the verdict is TRANSCODE at or above the transcode threshold, else
SUSPECT at or above the suspect threshold, else OK; and for any thresholds,
ordered or not, a higher combined score never yields a strictly weaker
verdict. -/
theorem C7_verdict (s t c c2 : Nat) (hcc : c ≤ c2) :
    (t ≤ c → verdictOf s t c = .Transcode)
    ∧ (c < t → s ≤ c → verdictOf s t c = .Suspect)
    ∧ (c < t → c < s → verdictOf s t c = .Ok)
    ∧ verdictRank (verdictOf s t c) ≤ verdictRank (verdictOf s t c2) := by
  refine ⟨?_, ?_, ?_, ?_⟩
  · intro h
    rw [verdictOf, if_pos h]
  · intro h1 h2
    rw [verdictOf, if_neg (by omega), if_pos h2]
  · intro h1 h2
    rw [verdictOf, if_neg (by omega), if_neg (by omega)]
  · unfold verdictOf
    split_ifs <;> simp [verdictRank] <;> omega

/-- C7 witness with the default thresholds 35/65. -/
theorem C7_verdict_witness :
    verdictOf 35 65 70 = Verdict.Transcode
    ∧ verdictRank (verdictOf 35 65 40) ≤ verdictRank (verdictOf 35 65 70) := by
  have h1 := C7_verdict 35 65 70 70 (by decide)
  have h2 := C7_verdict 35 65 40 70 (by decide)
  exact ⟨h1.1 (by decide), h2.2.2.2⟩
